import Mathlib

/-
Verification of the right-click message menu extension (src/index.js).

The development shallowly embeds the extension's core logic:
tooltip parsing (parse_tooltip), button collection (get_buttons /
get_edit_buttons), menu construction (update_menu), menu positioning
(set_menu_position) and the gesture handling state machine
(handle_interaction / init_menu listeners).

Strings are modelled as Lean strings (lists of characters); JavaScript
machine details that the code depends on are modelled explicitly:
the whitespace class of the regexes, JS object property lookup including
Object.prototype inheritance, Array.prototype.indexOf strict equality
against a jQuery object, and Array.prototype.splice with a negative index.
-/

/-- The JavaScript regex character class backslash-s (also the set trimmed by
String.prototype.trim): ASCII whitespace plus the Unicode space characters. -/
def jsWs (c : Char) : Bool :=
  c = ' ' || c = '\t' || c = '\n' || c = '\r' || c = '\x0b' || c = '\x0c' ||
  c = '\u00A0' || c = '\u1680' || ('\u2000' ≤ c && c ≤ '\u200A') ||
  c = '\u2028' || c = '\u2029' || c = '\u202F' || c = '\u205F' ||
  c = '\u3000' || c = '\uFEFF'

/-- JavaScript line terminators, which the regex dot does not match. -/
def isLineTerm (c : Char) : Bool :=
  c = '\n' || c = '\r' || c = '\u2028' || c = '\u2029'

/-- A JavaScript value that the tooltip parser can produce as the item text:
either a string, or a function value inherited from Object.prototype
(the object-literal lookup in parse_tooltip can return such a value). -/
inductive JSVal where
  | str (s : String)
  | protoFn (name : String)
deriving DecidableEq, Repr

/-- The button_name_map object literal of src/index.js: the mapping for some
default button names. -/
def button_name_map : List (String × String) :=
  [("Exclude message from prompts", "Exclude from prompts")]

/-- Own property names of Object.prototype. An object literal inherits these,
so indexing it with one of these names yields a (truthy) non-string value. -/
def object_proto_members : List String :=
  ["constructor", "hasOwnProperty", "isPrototypeOf", "propertyIsEnumerable",
   "toLocaleString", "toString", "valueOf", "__defineGetter__",
   "__defineSetter__", "__lookupGetter__", "__lookupSetter__", "__proto__"]

/-- JS property read button_name_map[tooltip]: own properties first, then the
prototype chain (Object.prototype members; each of those values is a function
or, for __proto__, an object, so they are modelled as JSVal.protoFn). -/
def button_name_map_get (key : String) : Option JSVal :=
  match button_name_map.lookup key with
  | some v => some (JSVal.str v)
  | none =>
      if key ∈ object_proto_members then some (JSVal.protoFn key) else none

/-- JS truthiness of the looked-up value: the empty string is falsy, any other
string is truthy, functions and objects are truthy. -/
def jsvalTruthy : JSVal → Bool
  | JSVal.str s => s != ""
  | JSVal.protoFn _ => true

/-- Does the regex piece backslash-s dash backslash-s match at the head of the
character list? -/
def wsDashWs (cs : List Char) : Bool :=
  match cs with
  | a :: b :: c :: _ => jsWs a && (b == '-') && jsWs c
  | _ => false

/-- Does the regex piece dot-star rparen backslash-s-star dollar match the
given suffix (the characters following an opening parenthesis)?  True iff some
closing parenthesis is reachable without crossing a line terminator and is
followed only by whitespace up to the end of the string. -/
def parenRest : List Char → Bool
  | [] => false
  | c :: rest => (c == ')' && rest.all jsWs) || (!isLineTerm c && parenRest rest)

/-- Does the anchored alternative lparen dot-star rparen backslash-s-star
dollar match at the head of the character list? -/
def parenHead : List Char → Bool
  | c :: rest => c == '(' && parenRest rest
  | [] => false

/-- tooltip.search of the regex used by parse_tooltip: scan positions left to
right and return the first index where either alternative matches
(none models the -1 result). -/
def searchFrom : List Char → Nat → Option Nat
  | [], _ => none
  | c :: rest, i =>
      if wsDashWs (c :: rest) || parenHead (c :: rest) then some i
      else searchFrom rest (i + 1)

/-- The regex of parse_tooltip matches at position i of cs. -/
def matchesAt (cs : List Char) (i : Nat) : Bool :=
  wsDashWs (cs.drop i) || parenHead (cs.drop i)

/-- String.prototype.trim on a character list. -/
def jsTrim (cs : List Char) : List Char :=
  (((cs.dropWhile jsWs).reverse).dropWhile jsWs).reverse

/-- The global replace removing the markers from the title in parse_tooltip:
every whitespace-dash-whitespace occurrence is removed, an opening parenthesis
is removed only at the very start of the string, and a closing parenthesis is
removed only at the very end.  Scanning resumes after each match, as the JS
global-flag replace does. -/
def stripMarkers : Bool → List Char → List Char
  | _, [] => []
  | atStart, a :: b :: c :: rest =>
      if jsWs a && (b == '-') && jsWs c then stripMarkers false rest
      else if atStart && a == '(' then stripMarkers false (b :: c :: rest)
      else a :: stripMarkers false (b :: c :: rest)
  | atStart, a :: rest =>
      if atStart && a == '(' then stripMarkers false rest
      else if a == ')' && rest.isEmpty then []
      else a :: stripMarkers false rest

/-- The else branch of parse_tooltip: search for the regex; on a match at idx,
text is the part before idx trimmed and title is the part from idx with the
markers stripped; with no match the whole tooltip is the text. -/
def parse_tooltip_fallback (tooltip : String) : JSVal × String :=
  match searchFrom tooltip.data 0 with
  | some idx =>
      (JSVal.str (String.mk (jsTrim (tooltip.data.take idx))),
       String.mk (stripMarkers true (tooltip.data.drop idx)))
  | none => (JSVal.str tooltip, "")

/-- parse_tooltip of src/index.js on a string argument: empty tooltips give
empty fields; a truthy lookup in button_name_map gives the mapped value as
text and the tooltip as title; otherwise the regex split is attempted. -/
def parse_tooltip (tooltip : String) : JSVal × String :=
  if tooltip = "" then (JSVal.str "", "")
  else
    match button_name_map_get tooltip with
    | some mapped =>
        if jsvalTruthy mapped then (mapped, tooltip)
        else parse_tooltip_fallback tooltip
    | none => parse_tooltip_fallback tooltip

/-- parse_tooltip on a possibly absent (undefined) tooltip: an absent tooltip
is falsy, so both fields come back empty. -/
def parse_tooltip_opt : Option String → JSVal × String
  | none => (JSVal.str "", "")
  | some s => parse_tooltip s

/-- A host-page action button element (a .mes_button, or an edit-toolbar
control).  bid is the element identity, classes its class list, title the
title property (empty string when unset), stttTitle the data-sttt--title
attribute (absent when undefined), hasSvg whether an svg icon was added. -/
structure Button where
  bid : Nat
  classes : List String
  title : String
  stttTitle : Option String
  hasSvg : Bool
deriving DecidableEq, Repr

/-- The tooltip expression of update_menu: the title property or, when that is
falsy, the data-sttt--title attribute (possibly undefined). -/
def button_tooltip (b : Button) : Option String :=
  if b.title != "" then some b.title else b.stttTitle

/-- A message div: its mesid attribute, the .mes_buttons .mes_button elements
in document order, the .mes_edit_buttons .mes_edit_delete element, the
.mes_edit_buttons .menu_button elements, and whether an edit textarea is
currently present (the message is being edited). -/
structure Message where
  mesid : Nat
  buttons : List Button
  editDelete : Button
  editButtons : List Button
  hasEditTextarea : Bool
deriving DecidableEq, Repr

/-- A JavaScript value as compared by Array.prototype.indexOf inside
get_buttons: the collected array holds raw DOM elements, while the value
searched for can be a jQuery collection object (which is never strictly equal
to a DOM element). -/
inductive JQVal where
  | elem (b : Button)
  | jqObject (bs : List Button)
deriving DecidableEq, Repr

/-- Array.prototype.indexOf with strict equality, -1 when absent. -/
def jsIndexOf {α : Type} [DecidableEq α] : List α → α → Int
  | [], _ => -1
  | a :: rest, v =>
      if a = v then 0
      else
        let r := jsIndexOf rest v
        if r = -1 then -1 else r + 1

/-- Array.prototype.splice(start, 1): a negative start counts from the end of
the array (clamped at 0), a start at or beyond the length deletes nothing. -/
def jsSplice1 {α : Type} (arr : List α) (start : Int) : List α :=
  let s : Nat :=
    if start < 0 then (max ((arr.length : Int) + start) 0).toNat
    else min start.toNat arr.length
  arr.take s ++ arr.drop (s + 1)

/-- The selection .mes_buttons .mes_button:not(.extraMesButtonsHint) on a
message div. -/
def collected_message_buttons (msg : Message) : List Button :=
  msg.buttons.filter (fun b => !(b.classes.contains "extraMesButtonsHint"))

/-- The filter .mes_edit of the collected buttons. -/
def collected_edit_buttons (msg : Message) : List Button :=
  (collected_message_buttons msg).filter (fun b => b.classes.contains "mes_edit")

/-- The array get_buttons builds: when an edit button is found, the code
computes array.indexOf of the jQuery collection (not of its element!), splices
one entry out at that index, inserts the edit element at the front and pushes
the delete element at the back; otherwise the filtered selection is returned
unchanged. -/
def get_buttons (msg : Message) : List Button :=
  let buttons := collected_message_buttons msg
  match collected_edit_buttons msg with
  | [] => buttons
  | e :: es =>
      let at_index := jsIndexOf (buttons.map JQVal.elem)
                        (JQVal.jqObject (e :: es))
      let arr := jsSplice1 buttons at_index
      (e :: arr) ++ [msg.editDelete]

/-- get_edit_buttons: the .mes_edit_buttons .menu_button elements. -/
def get_edit_buttons (msg : Message) : List Button :=
  msg.editButtons

/-- Template-literal interpolation of a possibly undefined string. -/
def jsInterp : Option String → String
  | none => "undefined"
  | some s => s

/-- A menu item node built by update_menu: bound to its source button by bid,
with the vertical-mode label (text/title from parse_tooltip) or the
horizontal-mode verbatim tooltip title, plus the icon information. -/
structure MenuItem where
  sourceId : Nat
  text : JSVal
  title : String
  iconClasses : List String
  usesSvg : Bool
deriving Repr

/-- Build one menu item from a button, as the loop body of update_menu does:
fa- classes become the icon, vertical mode derives text/title via
parse_tooltip, horizontal mode uses the tooltip verbatim as the title. -/
def mk_item (menu_mode : String) (b : Button) : MenuItem :=
  let iconCls := b.classes.filter (fun cls => cls.startsWith "fa-")
  if menu_mode = "vertical" then
    let parsed := parse_tooltip_opt (button_tooltip b)
    { sourceId := b.bid, text := parsed.1, title := parsed.2,
      iconClasses := iconCls, usesSvg := b.hasSvg }
  else
    { sourceId := b.bid, text := JSVal.str "",
      title := jsInterp (button_tooltip b),
      iconClasses := iconCls, usesSvg := b.hasSvg }

/-- The item loop of update_menu: iterate the collected buttons in order,
skip any whose computed display is none at build time (css gives the current
computed display of each button), append one item for each remaining one. -/
def build_items (menu_mode : String) (css : Button → String) :
    List Button → List MenuItem
  | [] => []
  | b :: rest =>
      if css b = "none" then build_items menu_mode css rest
      else mk_item menu_mode b :: build_items menu_mode css rest

/-- The menu contents produced by update_menu: nothing in disabled mode (the
function returns right after clearing the menu), otherwise the items built
from the edit-mode or normal button collection. -/
def update_menu_items (menu_mode : String) (msg : Message) (edit : Bool)
    (css : Button → String) : List MenuItem :=
  if menu_mode = "disabled" then []
  else build_items menu_mode css
         (if edit then get_edit_buttons msg else get_buttons msg)

/-- set_menu_position: anchor at the mouse position; if the menu would
overflow the right edge of the screen, shift left by the menu width; if it
would overflow the bottom, shift up by the menu height. -/
def set_menu_position (mouse_x mouse_y menu_w menu_h screen_w screen_h : Int) :
    Int × Int :=
  let x_pos := if mouse_x + menu_w > screen_w then mouse_x - menu_w else mouse_x
  let y_pos := if mouse_y + menu_h > screen_h then mouse_y - menu_h else mouse_y
  (x_pos, y_pos)

/-- An observable action on the host application triggered from the delete
control: establishing the edit context for a message, or the host's own
delete-message semantics. -/
inductive HostAction where
  | setEditedMessageId (mesid : Nat)
  | nativeDelete
deriving DecidableEq, Repr

/-- The click-handler registration get_buttons performs on every call: one
more handler calling setEditedMessageId(Number(mesid)) is appended to the
handlers already bound on the message's .mes_edit_delete control; none are
ever removed. -/
def bind_delete_handler (msg : Message) (hs : List HostAction) :
    List HostAction :=
  hs ++ [HostAction.setEditedMessageId msg.mesid]

/-- Modelled from the spec: activating the delete proxy runs the handlers the
extension bound directly on the element, in binding order, and then the host
application's own delete semantics (which the host attaches by document-level
delegation, so they run after the element's direct handlers during bubbling;
they are inert outside edit mode until the edit context has been set). -/
def activate_delete (hs : List HostAction) : List HostAction :=
  hs ++ [HostAction.nativeDelete]

/-- n successive button collections on the same message, starting from a
delete control with no extension-bound handlers. -/
def collect_n (msg : Message) : Nat → List HostAction
  | 0 => []
  | n + 1 => bind_delete_handler msg (collect_n msg n)

/-- The extension settings read by the gesture handlers. -/
structure ExtSettings where
  menu_mode : String
  double_tap : Bool
deriving DecidableEq, Repr

/-- The environment of one gesture: pointer page coordinates, the bounding
box of the menu, and the screen dimensions. -/
structure GestureEnv where
  pageX : Int
  pageY : Int
  menuW : Int
  menuH : Int
  screenW : Int
  screenH : Int
deriving DecidableEq, Repr

/-- The menu-related page state: whether the floating container exists,
whether it is shown, its items, its position, and the last_tap timestamp of
the double-tap detector. -/
structure UIState where
  menuExists : Bool
  menuVisible : Bool
  menuItems : List MenuItem
  menuPos : Int × Int
  lastTap : Int

/-- update_menu as a state transformer: the container is created (or emptied)
first, then the disabled check may leave it empty, otherwise the items are
rebuilt from the message the gesture targeted. -/
def update_menu_st (menu_mode : String) (msg : Message)
    (css : Button → String) (st : UIState) : UIState :=
  { st with
      menuExists := true,
      menuItems := update_menu_items menu_mode msg msg.hasEditTextarea css }

/-- handle_interaction: in disabled mode nothing at all happens; otherwise the
menu is rebuilt, positioned at the gesture coordinates and shown. -/
def handle_interaction (s : ExtSettings) (msg : Message)
    (css : Button → String) (env : GestureEnv) (st : UIState) : UIState :=
  if s.menu_mode = "disabled" then st
  else
    let st1 := update_menu_st s.menu_mode msg css st
    { st1 with
        menuPos := set_menu_position env.pageX env.pageY env.menuW env.menuH
                     env.screenW env.screenH,
        menuVisible := true }

/-- A user interface event: a right click on a message text, a touch release
on it (carrying the current timestamp), or a click anywhere on the page. -/
inductive UiEvent where
  | contextmenu (msg : Message) (css : Button → String) (env : GestureEnv)
  | touchend (msg : Message) (css : Button → String) (env : GestureEnv)
      (time : Int)
  | globalClick

/-- One step of the document-level listeners installed by init_menu:
contextmenu triggers the handler unless double-tap mode is on; touchend
triggers it on a double tap within 300 milliseconds when double-tap mode is
on, and always records the tap time; a global click hides a visible menu
unless the mode is disabled. -/
def ui_step (s : ExtSettings) (st : UIState) : UiEvent → UIState
  | UiEvent.contextmenu msg css env =>
      if s.double_tap = false then handle_interaction s msg css env st else st
  | UiEvent.touchend msg css env time =>
      let tap_length := time - st.lastTap
      let st1 :=
        if tap_length < 300 ∧ 0 < tap_length then
          (if s.double_tap = true then handle_interaction s msg css env st
           else st)
        else st
      { st1 with lastTap := time }
  | UiEvent.globalClick =>
      if s.menu_mode = "disabled" then st
      else if st.menuVisible = false then st
      else { st with menuVisible := false }

/- Concrete fixtures used by the witnesses and counterexamples. -/

/-- A plain message button with the given element id. -/
def plainBtn (i : Nat) : Button :=
  { bid := i, classes := ["mes_button"], title := "", stttTitle := none,
    hasSvg := false }

/-- An edit button (class mes_edit) with the given element id. -/
def editBtn (i : Nat) : Button :=
  { bid := i, classes := ["mes_button", "mes_edit"], title := "", stttTitle := none,
    hasSvg := false }

/-- A delete control (in the edit toolbar) with the given element id. -/
def deleteBtn (i : Nat) : Button :=
  { bid := i, classes := ["mes_edit_delete"], title := "", stttTitle := none,
    hasSvg := false }

/-- A message with five buttons whose edit button sits at index 2. -/
def msgFive : Message :=
  { mesid := 7,
    buttons := [plainBtn 0, plainBtn 1, editBtn 2, plainBtn 3, plainBtn 4],
    editDelete := deleteBtn 9,
    editButtons := [],
    hasEditTextarea := false }

/-- A small message with an edit button and one other button. -/
def msgW : Message :=
  { mesid := 7,
    buttons := [editBtn 2, plainBtn 1],
    editDelete := deleteBtn 9,
    editButtons := [],
    hasEditTextarea := false }

/-- A computed-display function marking every button visible. -/
def cssW : Button → String := fun _ => "flex"

/-- Disabled-mode settings. -/
def sDisabled : ExtSettings := { menu_mode := "disabled", double_tap := false }

/-- A gesture environment for the witnesses. -/
def envW : GestureEnv :=
  { pageX := 10, pageY := 10, menuW := 50, menuH := 50,
    screenW := 800, screenH := 600 }

/-- An initial hidden-menu page state. -/
def st0W : UIState :=
  { menuExists := false, menuVisible := false, menuItems := [],
    menuPos := (0, 0), lastTap := 0 }

/- Helper lemmas. -/

/-- Every menu item keeps the element identity of its source button. -/
lemma mk_item_sourceId (menu_mode : String) (b : Button) :
    (mk_item menu_mode b).sourceId = b.bid := by
  unfold mk_item
  by_cases h : menu_mode = "vertical" <;> simp [h]

/-- The item loop keeps exactly the buttons whose computed display is not
none, in order. -/
lemma build_items_sources (menu_mode : String) (css : Button → String) :
    ∀ l : List Button,
      (build_items menu_mode css l).map (fun it => it.sourceId)
        = (l.filter (fun b => css b != "none")).map (fun b => b.bid) := by
  intro l
  induction l with
  | nil => simp [build_items]
  | cons b rest ih =>
      by_cases h : css b = "none" <;>
        simp [build_items, List.filter_cons, h, ih, mk_item_sourceId]

/-- The last entry of a list with one element appended. -/
lemma getLast?_append_single {α : Type} (l : List α) (a : α) :
    (l ++ [a]).getLast? = some a := by
  induction l with
  | nil => rfl
  | cons x xs ih =>
      cases xs with
      | nil => rfl
      | cons y ys =>
          simp only [List.cons_append, List.getLast?_cons_cons] at ih ⊢
          exact ih

/-- In disabled mode the gesture handler does nothing at all. -/
lemma handle_interaction_disabled (s : ExtSettings)
    (hs : s.menu_mode = "disabled") (msg : Message) (css : Button → String)
    (env : GestureEnv) (st : UIState) :
    handle_interaction s msg css env st = st := by
  unfold handle_interaction
  rw [if_pos hs]

/-- In disabled mode no event changes the menu state (only the tap timestamp
can change). -/
lemma ui_step_disabled_menu_unchanged (s : ExtSettings)
    (hs : s.menu_mode = "disabled") (st : UIState) (e : UiEvent) :
    (ui_step s st e).menuVisible = st.menuVisible ∧
    (ui_step s st e).menuExists = st.menuExists ∧
    (ui_step s st e).menuItems = st.menuItems := by
  cases e with
  | contextmenu msg css env =>
      by_cases hdt : s.double_tap = false <;>
        simp [ui_step, hdt, handle_interaction_disabled s hs]
  | touchend msg css env time =>
      by_cases h1 : (time - st.lastTap) < 300 ∧ 0 < (time - st.lastTap) <;>
      by_cases h2 : s.double_tap = true <;>
        simp [ui_step, h1, h2, handle_interaction_disabled s hs]
  | globalClick => simp [ui_step, hs]

/- Claim theorems. -/

/-- C1: for every build in vertical or horizontal mode, the menu items agree
in number and order with the collected buttons whose computed display at
build time is not none. -/
theorem c1_menu_items_match_visible_buttons (menu_mode : String)
    (msg : Message) (edit : Bool) (css : Button → String)
    (h : menu_mode = "vertical" ∨ menu_mode = "horizontal") :
    (update_menu_items menu_mode msg edit css).map (fun it => it.sourceId)
      = ((if edit then get_edit_buttons msg else get_buttons msg).filter
          (fun b => css b != "none")).map (fun b => b.bid) ∧
    (update_menu_items menu_mode msg edit css).length
      = ((if edit then get_edit_buttons msg else get_buttons msg).filter
          (fun b => css b != "none")).length := by
  have hd : ¬ menu_mode = "disabled" := by
    rcases h with h | h <;> subst h <;> decide
  unfold update_menu_items
  rw [if_neg hd]
  refine ⟨build_items_sources menu_mode css _, ?_⟩
  have h2 := congrArg List.length (build_items_sources menu_mode css
    (if edit then get_edit_buttons msg else get_buttons msg))
  simpa using h2

/-- C1 witness: a vertical build on a concrete message with everything
visible yields items bound, in order, to the (collected) buttons. -/
theorem c1_witness :
    (update_menu_items "vertical" msgW false cssW).map (fun it => it.sourceId)
      = [2, 2, 9] ∧
    (update_menu_items "vertical" msgW false cssW).length = 3 := by
  have h := c1_menu_items_match_visible_buttons "vertical" msgW false cssW
    (Or.inl rfl)
  revert h
  decide

/-- C2: on five buttons with the edit button at index 2, the collector
produces [edit, b0, b1, edit, b3, delete]: indexOf of the jQuery collection
is -1, so splice(-1, 1) removes the last button b4 and the edit button is
duplicated, contrary to the intended reorder documented in the code comments
(edit first, delete last, the edit button moved, nothing lost). -/
theorem c2_collector_duplicates_edit_and_drops_last :
    get_buttons msgFive
      = [editBtn 2, plainBtn 0, plainBtn 1, editBtn 2, plainBtn 3, deleteBtn 9]
      ∧
    get_buttons msgFive
      ≠ [editBtn 2, plainBtn 0, plainBtn 1, plainBtn 3, plainBtn 4, deleteBtn 9]
      ∧
    plainBtn 4 ∉ get_buttons msgFive ∧
    (get_buttons msgFive).count (editBtn 2) = 2 := by decide

/-- C4: with an edit button present, the collected delete proxy sits last in
the collected order, and activating it on a freshly collected message first
sets the edited-message id and only then reaches the native delete
semantics. -/
theorem c4_delete_proxy_last_and_sets_edit_context (msg : Message)
    (h : collected_edit_buttons msg ≠ []) :
    (get_buttons msg).getLast? = some msg.editDelete ∧
    activate_delete (bind_delete_handler msg [])
      = [HostAction.setEditedMessageId msg.mesid, HostAction.nativeDelete] := by
  constructor
  · obtain ⟨e, es, he⟩ := List.exists_cons_of_ne_nil h
    unfold get_buttons
    rw [he]
    exact getLast?_append_single _ _
  · rfl

/-- C4 witness: the concrete two-button message. -/
theorem c4_witness :
    (get_buttons msgW).getLast? = some (deleteBtn 9) ∧
    activate_delete (bind_delete_handler msgW [])
      = [HostAction.setEditedMessageId 7, HostAction.nativeDelete] := by
  have h := c4_delete_proxy_last_and_sets_edit_context msgW (by decide)
  revert h
  decide

/-- C5 counterexample: a 60-wide, 60-high menu (smaller than the 100 by 100
screen) positioned for a pointer at (50, 50) is placed at (-10, -10): part of
the menu sticks out past the left and top edges, refuting the claim that the
computed position always keeps the whole menu inside the viewport. -/
theorem c5_menu_can_overflow_left_and_top :
    (60 : Int) < 100 ∧
    (0 : Int) ≤ 50 ∧ (50 : Int) ≤ 100 ∧
    set_menu_position 50 50 60 60 100 100 = (-10, -10) ∧
    (set_menu_position 50 50 60 60 100 100).1 < 0 ∧
    (set_menu_position 50 50 60 60 100 100).2 < 0 := by decide

/-- C5 amended: for a pointer inside the screen the computed position never
lets the menu cross the right or bottom edge; the right-overflow correction
shifts left by exactly the menu width (the right edge lands at the pointer x)
and the bottom-overflow correction shifts up by exactly the menu height, the
two independently of each other; the left and top edges may be crossed. -/
theorem c5_amended_right_bottom_edges_clamped
    (mouse_x mouse_y menu_w menu_h screen_w screen_h : Int)
    (hx : mouse_x ≤ screen_w) (hy : mouse_y ≤ screen_h) :
    (set_menu_position mouse_x mouse_y menu_w menu_h screen_w screen_h).1
        + menu_w ≤ screen_w ∧
    (set_menu_position mouse_x mouse_y menu_w menu_h screen_w screen_h).2
        + menu_h ≤ screen_h ∧
    (mouse_x + menu_w > screen_w →
      (set_menu_position mouse_x mouse_y menu_w menu_h screen_w screen_h).1
        = mouse_x - menu_w) ∧
    (mouse_x + menu_w ≤ screen_w →
      (set_menu_position mouse_x mouse_y menu_w menu_h screen_w screen_h).1
        = mouse_x) ∧
    (mouse_y + menu_h > screen_h →
      (set_menu_position mouse_x mouse_y menu_w menu_h screen_w screen_h).2
        = mouse_y - menu_h) ∧
    (mouse_y + menu_h ≤ screen_h →
      (set_menu_position mouse_x mouse_y menu_w menu_h screen_w screen_h).2
        = mouse_y) := by
  simp only [set_menu_position]
  split_ifs with h1 h2 h2 <;>
    refine ⟨?_, ?_, ?_, ?_, ?_, ?_⟩ <;> intros <;> omega

/-- C5 witness: pointer at (90, 95) with a 20 by 20 menu on a 100 by 100
screen: both overflow corrections fire and the menu ends at (70, 75). -/
theorem c5_witness :
    (set_menu_position 90 95 20 20 100 100).1 + 20 ≤ 100 ∧
    (set_menu_position 90 95 20 20 100 100).2 + 20 ≤ 100 ∧
    ((90 : Int) + 20 > 100 →
      (set_menu_position 90 95 20 20 100 100).1 = 90 - 20) ∧
    ((90 : Int) + 20 ≤ 100 →
      (set_menu_position 90 95 20 20 100 100).1 = 90) ∧
    ((95 : Int) + 20 > 100 →
      (set_menu_position 90 95 20 20 100 100).2 = 95 - 20) ∧
    ((95 : Int) + 20 ≤ 100 →
      (set_menu_position 90 95 20 20 100 100).2 = 95) :=
  c5_amended_right_bottom_edges_clamped 90 95 20 20 100 100 (by decide)
    (by decide)

/-- C6: a tooltip equal to a key of the override table is mapped to the
table's short label as the text, with the original tooltip as the title. -/
theorem c6_override_key_mapping (t v : String)
    (h : (t, v) ∈ button_name_map) :
    parse_tooltip t = (JSVal.str v, t) := by
  simp [button_name_map, Prod.mk.injEq] at h
  obtain ⟨ht, hv⟩ := h
  subst ht; subst hv
  decide

/-- C6 witness: the one override key of the table. -/
theorem c6_witness :
    parse_tooltip "Exclude message from prompts"
      = (JSVal.str "Exclude from prompts", "Exclude message from prompts") :=
  c6_override_key_mapping _ _ (by decide)

/-- C7: the empty and absent tooltips give two empty fields, but the
fall-through for non-override keys is broken for names of Object.prototype
members: for the tooltip toString the object-literal lookup returns the
inherited (truthy) function, so the parser returns that function as the text
and the raw tooltip as the title instead of the raw tooltip and an empty
title. -/
theorem c7_proto_member_breaks_fallthrough :
    parse_tooltip "" = (JSVal.str "", "") ∧
    parse_tooltip_opt none = (JSVal.str "", "") ∧
    parse_tooltip "toString" = (JSVal.protoFn "toString", "toString") ∧
    parse_tooltip "toString" ≠ (JSVal.str "toString", "") := by decide

/-- C9: in disabled mode the gesture handler is the identity on the page
state, and starting from a hidden menu no sequence of events ever reaches a
state with a visible menu. -/
theorem c9_disabled_menu_unreachable (s : ExtSettings)
    (hs : s.menu_mode = "disabled") :
    (∀ (msg : Message) (css : Button → String) (env : GestureEnv)
        (st : UIState), handle_interaction s msg css env st = st) ∧
    (∀ (events : List UiEvent) (st0 : UIState), st0.menuVisible = false →
        (List.foldl (ui_step s) st0 events).menuVisible = false) := by
  constructor
  · exact fun msg css env st => handle_interaction_disabled s hs msg css env st
  · intro events
    induction events with
    | nil => intro st0 h0; simpa using h0
    | cons e rest ih =>
        intro st0 h0
        have hstep := (ui_step_disabled_menu_unchanged s hs st0 e).1
        simp only [List.foldl_cons]
        exact ih _ (hstep.trans h0)

/-- C9 witness: a right click followed by a global click, in disabled mode,
starting from the hidden initial state. -/
theorem c9_witness :
    handle_interaction sDisabled msgW cssW envW st0W = st0W ∧
    (List.foldl (ui_step sDisabled) st0W
      [UiEvent.contextmenu msgW cssW envW, UiEvent.globalClick]).menuVisible
      = false := by
  have h := c9_disabled_menu_unreachable sDisabled rfl
  exact ⟨h.1 msgW cssW envW st0W, h.2 _ st0W rfl⟩

/-- C10: n collections on the same message stack n click handlers on its
delete control, none are removed, and one activation then performs the
edit-context action n times before the native delete semantics. -/
theorem c10_delete_handler_accumulation (msg : Message) (n : Nat) :
    collect_n msg n
      = List.replicate n (HostAction.setEditedMessageId msg.mesid) ∧
    (collect_n msg n).count (HostAction.setEditedMessageId msg.mesid) = n ∧
    activate_delete (collect_n msg n)
      = List.replicate n (HostAction.setEditedMessageId msg.mesid)
        ++ [HostAction.nativeDelete] := by
  have hrep : collect_n msg n
      = List.replicate n (HostAction.setEditedMessageId msg.mesid) := by
    induction n with
    | zero => rfl
    | succ k ih =>
        simp [collect_n, bind_delete_handler, ih, List.replicate_succ']
  refine ⟨hrep, ?_, ?_⟩
  · rw [hrep, List.count_replicate_self]
  · rw [hrep]; rfl

/- Regex-search and marker-stripping lemmas for the tooltip parser. -/

/-- The scan of searchFrom returns offset k plus the least match position. -/
lemma searchFrom_first (cs : List Char) (k i : Nat)
    (h1 : matchesAt cs i = true) (h2 : ∀ j, j < i → matchesAt cs j = false) :
    searchFrom cs k = some (k + i) := by
  induction cs generalizing k i with
  | nil => simp [matchesAt, wsDashWs, parenHead] at h1
  | cons c rest ih =>
      cases i with
      | zero =>
          have hc : (wsDashWs (c :: rest) || parenHead (c :: rest)) = true := h1
          simp [searchFrom, hc]
      | succ i' =>
          have hc : (wsDashWs (c :: rest) || parenHead (c :: rest)) = false :=
            h2 0 (Nat.succ_pos i')
          have h1' : matchesAt rest i' = true := h1
          have h2' : ∀ j, j < i' → matchesAt rest j = false := fun j hj =>
            h2 (j + 1) (Nat.succ_lt_succ hj)
          calc searchFrom (c :: rest) k
              = searchFrom rest (k + 1) := by simp [searchFrom, hc]
            _ = some ((k + 1) + i') := ih (k + 1) i' h1' h2'
            _ = some (k + (i' + 1)) := by congr 1; omega

/-- When a line-terminator-free prefix ends in a closing parenthesis at the
end of the string, the anchored parenthesis alternative matches. -/
lemma parenRest_clean (u : List Char)
    (hu : ∀ c ∈ u, isLineTerm c = false) :
    parenRest (u ++ [')']) = true := by
  induction u with
  | nil => decide
  | cons c tl ih =>
      have hc : isLineTerm c = false := hu c (List.mem_cons_self c tl)
      have ih' := ih (fun d hd => hu d (List.mem_cons_of_mem c hd))
      simp [parenRest, hc, ih']

/-- Appending a tail whose first character is neither a dash nor whitespace
cannot create a whitespace-dash-whitespace match at the head. -/
lemma wsDashWs_append (l t : List Char) (hl : wsDashWs l = false)
    (h0 : ∀ c, t.head? = some c → ((c == '-') = false ∧ jsWs c = false)) :
    wsDashWs (l ++ t) = false := by
  rcases l with _ | ⟨a, _ | ⟨b, _ | ⟨c, rest⟩⟩⟩
  · rcases t with _ | ⟨x, _ | ⟨y, t'⟩⟩
    · rfl
    · rfl
    · have hx := (h0 x rfl).2
      rcases t' with _ | ⟨z, t''⟩ <;> simp [wsDashWs, hx]
  · rcases t with _ | ⟨x, _ | ⟨y, t'⟩⟩
    · rfl
    · rfl
    · have hx := (h0 x rfl).1
      simp [wsDashWs, hx]
  · rcases t with _ | ⟨x, t'⟩
    · simpa using hl
    · have hx := (h0 x rfl).2
      simp [wsDashWs, hx]
  · simpa [wsDashWs] using hl

/-- An opening parenthesis right after the start marker is consumed and the
scan continues off the start. -/
lemma stripMarkers_open (l : List Char) :
    stripMarkers true ('(' :: l) = stripMarkers false l := by
  rcases l with _ | ⟨x, _ | ⟨y, rest⟩⟩ <;>
    simp [stripMarkers, show jsWs '(' = false from by decide]

/-- One keep-step of the marker stripping scan: with no
whitespace-dash-whitespace match at the head and no final closing
parenthesis, the head character is kept. -/
lemma stripMarkers_cons_keep (a : Char) (l : List Char)
    (hw : wsDashWs (a :: l) = false)
    (hlast : l ≠ [] ∨ (a == ')') = false) :
    stripMarkers false (a :: l) = a :: stripMarkers false l := by
  rcases l with _ | ⟨b, _ | ⟨c, rest⟩⟩
  · have ha : (a == ')') = false := by
      rcases hlast with h | h
      · exact absurd rfl h
      · exact h
    simp [stripMarkers, ha]
  · simp [stripMarkers]
  · have hw' : (jsWs a && (b == '-') && jsWs c) = false := hw
    simp [stripMarkers, hw']

/-- The marker stripping scan keeps a delimiter-free segment intact and
removes the final closing parenthesis. -/
lemma stripMarkers_keep (u : List Char)
    (hu : ∀ i, i < u.length → wsDashWs (u.drop i) = false) :
    stripMarkers false (u ++ [')']) = u := by
  induction u with
  | nil => decide
  | cons c tl ih =>
      have hw0 : wsDashWs (c :: tl) = false := by
        have := hu 0 (Nat.succ_pos tl.length)
        simpa using this
      have hw : wsDashWs ((c :: tl) ++ [')']) = false :=
        wsDashWs_append (c :: tl) [')'] hw0
          (fun x hx => by
            simp at hx
            subst hx
            exact ⟨by decide, by decide⟩)
      have htl : ∀ i, i < tl.length → wsDashWs (tl.drop i) = false :=
        fun i hi => hu (i + 1) (Nat.succ_lt_succ hi)
      rw [List.cons_append,
        stripMarkers_cons_keep c (tl ++ [')'])
          (by simpa using hw) (Or.inl (by simp)),
        ih htl]

/-- C3 counterexample: in the tooltip a - b - c the last delimiter occurrence
starts at index 5, so the claimed split would give text a - b and title c;
but String.search returns the first match (index 1), so the parser returns
text a and title bc instead. -/
theorem c3_counterexample_splits_at_first_not_last :
    matchesAt ("a - b - c".data) 5 = true ∧
    (∀ j, j < ("a - b - c".data).length → 5 < j →
        matchesAt ("a - b - c".data) j = false) ∧
    parse_tooltip "a - b - c" = (JSVal.str "a", "bc") ∧
    parse_tooltip "a - b - c" ≠ (JSVal.str "a - b", "c") := by decide

/-- C3 amended: for a tooltip that is not an override key (nor an inherited
object-prototype member name) and on which the regex matches, parse_tooltip
splits at the index i of the FIRST (leftmost) occurrence: the text is the
substring before i, trimmed, and the title is the substring from i to the end
with every whitespace-dash-whitespace occurrence removed and a leading
opening parenthesis and a trailing closing parenthesis stripped. -/
theorem c3_amended_first_occurrence_split (t : String) (i : Nat)
    (hne : t ≠ "")
    (hmap : button_name_map_get t = none)
    (h1 : matchesAt t.data i = true)
    (h2 : ∀ j, j < i → matchesAt t.data j = false) :
    parse_tooltip t
      = (JSVal.str (String.mk (jsTrim (t.data.take i))),
         String.mk (stripMarkers true (t.data.drop i))) := by
  have hsearch : searchFrom t.data 0 = some i := by
    have h := searchFrom_first t.data 0 i h1 h2
    simpa using h
  unfold parse_tooltip
  rw [if_neg hne, hmap]
  show parse_tooltip_fallback t = _
  unfold parse_tooltip_fallback
  rw [hsearch]

/-- C3 witness: the tooltip a - b - c matches first at index 1. -/
theorem c3_witness : parse_tooltip "a - b - c" = (JSVal.str "a", "bc") := by
  have h := c3_amended_first_occurrence_split "a - b - c" 1 (by decide)
    (by decide) (by decide) (by decide)
  revert h
  decide

/-- C8: a tooltip made of a prefix (free of the dash delimiter and of opening
parentheses) followed by a trailing parenthetical whose interior is free of
line terminators and of the dash delimiter, and which is not an override key,
splits into the trimmed prefix as text and exactly the parenthetical interior
as title: no character of the non-delimiter portion is invented or dropped. -/
theorem c8_trailing_parenthetical_reconstruction (pre inner : List Char)
    (hp1 : '(' ∉ pre)
    (hp2 : ∀ i, i < pre.length → wsDashWs (pre.drop i) = false)
    (hi1 : ∀ c ∈ inner, isLineTerm c = false)
    (hi2 : ∀ i, i < inner.length → wsDashWs (inner.drop i) = false)
    (hmap : button_name_map_get (String.mk (pre ++ ('(' :: (inner ++ [')']))))
        = none) :
    parse_tooltip (String.mk (pre ++ ('(' :: (inner ++ [')']))))
      = (JSVal.str (String.mk (jsTrim pre)), String.mk inner) := by
  have hne : ¬ (String.mk (pre ++ ('(' :: (inner ++ [')']))) = "") := by
    intro h
    have hdata : pre ++ ('(' :: (inner ++ [')'])) = [] := congrArg String.data h
    exact absurd hdata (by simp)
  have hmatch : matchesAt (pre ++ ('(' :: (inner ++ [')']))) pre.length = true := by
    unfold matchesAt
    rw [List.drop_left pre]
    have hpr : parenRest (inner ++ [')']) = true := parenRest_clean inner hi1
    simp [parenHead, hpr]
  have hlow : ∀ j, j < pre.length →
      matchesAt (pre ++ ('(' :: (inner ++ [')']))) j = false := by
    intro j hj
    have hdrop : List.drop j (pre ++ ('(' :: (inner ++ [')'])))
        = List.drop j pre ++ ('(' :: (inner ++ [')'])) :=
      List.drop_append_of_le_length (Nat.le_of_lt hj)
    have hdj : pre.drop j ≠ [] := by
      intro hnil
      rw [List.drop_eq_nil_iff] at hnil
      omega
    obtain ⟨a, d', hd⟩ := List.exists_cons_of_ne_nil hdj
    have ha : a ∈ pre := by
      refine List.drop_subset j pre ?_
      rw [hd]
      exact List.mem_cons_self a d'
    have hane : (a == '(') = false := by
      have hne' : a ≠ '(' := fun h => hp1 (h ▸ ha)
      exact beq_eq_false_iff_ne.mpr hne'
    have hws : wsDashWs (List.drop j pre ++ ('(' :: (inner ++ [')']))) = false := by
      refine wsDashWs_append _ _ (hp2 j hj) ?_
      intro c hc
      simp at hc
      subst hc
      exact ⟨by decide, by decide⟩
    have hph : parenHead (List.drop j pre ++ ('(' :: (inner ++ [')']))) = false := by
      rw [hd]
      simp [parenHead, List.cons_append, hane]
    simp [matchesAt, hdrop, hws, hph]
  have hsearch : searchFrom (pre ++ ('(' :: (inner ++ [')']))) 0 = some pre.length := by
    have h := searchFrom_first (pre ++ ('(' :: (inner ++ [')']))) 0 pre.length
      hmatch hlow
    simpa using h
  have htake : List.take pre.length (pre ++ ('(' :: (inner ++ [')']))) = pre :=
    List.take_left pre _
  have hdropL : List.drop pre.length (pre ++ ('(' :: (inner ++ [')'])))
      = '(' :: (inner ++ [')']) := List.drop_left pre _
  have hstrip : stripMarkers true ('(' :: (inner ++ [')'])) = inner := by
    rw [stripMarkers_open]
    exact stripMarkers_keep inner hi2
  unfold parse_tooltip
  rw [if_neg hne, hmap]
  show parse_tooltip_fallback (String.mk (pre ++ ('(' :: (inner ++ [')'])))) = _
  unfold parse_tooltip_fallback
  rw [show (String.mk (pre ++ ('(' :: (inner ++ [')'])))).data
      = pre ++ ('(' :: (inner ++ [')'])) from rfl, hsearch]
  show (JSVal.str (String.mk
        (jsTrim (List.take pre.length (pre ++ ('(' :: (inner ++ [')'])))))),
      String.mk (stripMarkers true
        (List.drop pre.length (pre ++ ('(' :: (inner ++ [')'])))))) = _
  rw [htake, hdropL, hstrip]

/-- C8 witness: the spec scenario Translate (Google). -/
theorem c8_witness :
    parse_tooltip "Translate (Google)" = (JSVal.str "Translate", "Google") := by
  have h := c8_trailing_parenthetical_reconstruction ("Translate ".data)
    ("Google".data) (by decide) (by decide) (by decide) (by decide) (by decide)
  revert h
  decide

/-- C10 witness: after three collections on the concrete message, one
activation performs the edit-context action three times before the native
delete. -/
theorem c10_witness :
    collect_n msgW 3
      = [HostAction.setEditedMessageId 7, HostAction.setEditedMessageId 7,
         HostAction.setEditedMessageId 7] ∧
    (collect_n msgW 3).count (HostAction.setEditedMessageId 7) = 3 ∧
    activate_delete (collect_n msgW 3)
      = [HostAction.setEditedMessageId 7, HostAction.setEditedMessageId 7,
         HostAction.setEditedMessageId 7, HostAction.nativeDelete] := by
  have h := c10_delete_handler_accumulation msgW 3
  revert h
  decide
